import Mathlib

/-
Verification development for the mix context-store core.

The program manages a project-local hidden store of Markdown notes addressed
by symbolic keys.  We give a shallow embedding of the three source files
(src/lib.rs, src/core/clean.rs, src/commands/cat.rs) together with models of
the components whose source is referenced but not present in the repository
snapshot (the key resolver, the path validator, the touch operation and the
error type); each such model carries a doc comment starting with
"Modelled from the spec:".

Modelling conventions:
- an absolute filesystem path is a list of path segments (the path "/a/b" is
  `["a", "b"]`, the filesystem root "/" is `[]`);
- the filesystem is an association list from absolute, normalized paths to
  nodes (regular files with byte contents, or directories); symlinks are not
  modelled, so kernel path resolution of "." and ".." coincides with lexical
  normalization (we assume, as the concrete fixtures below ensure, that the
  intermediate directories that a ".." walks through exist);
- file contents are byte lists; reading to a string is modelled by a UTF-8
  decoder returning the list of decoded code points, or `none` on invalid
  input, matching `std::fs::read_to_string` failing with an InvalidData error;
- the project root located by `find_project_root` (source not in the
  snapshot; spec section 4.1: it walks upward from the working directory and
  never fails, falling back to the working directory) is passed to each
  operation as an explicit `root` parameter;
- string manipulation is done on `List Char` with structural functions so
  that every definition evaluates by kernel reduction.
-/

namespace Mix

/-- An absolute filesystem path, as the list of its segments. -/
abbrev FPath := List String

/-- A possibly-absolute path as produced by key resolution: Rust `PathBuf`
values are either rooted (begin with `/`) or relative. -/
structure RPath where
  abs : Bool
  segs : List String
deriving DecidableEq

/-- Modelled from the spec: the error type `AppError` of src/error.rs, which
is not in the repository snapshot.  Spec section 7 lists the kinds:
`NotFound` (with a message), `PathTraversal` (carrying the offending key),
`Io` (wrapping filesystem failures, with a message) and `ClipboardError`. -/
inductive AppError where
  | notFound (msg : String)
  | pathTraversal (key : String)
  | ioError (msg : String)
  | clipboardError (msg : String)
deriving DecidableEq

/-- Splitting a character list at a separator, mirroring Rust's
`str::split` / `Path` component splitting (`splitChar '/' "a/b"` is
`[['a'],['b']]`, and the empty string yields `[[]]`). -/
def splitChar (sep : Char) : List Char → List (List Char)
  | [] => [[]]
  | c :: cs =>
    let r := splitChar sep cs
    if c = sep then [] :: r
    else
      match r with
      | s :: rest => (c :: s) :: rest
      | [] => [[c]]

/-- String prefix test on the underlying character lists. -/
def strStarts (p s : String) : Bool := p.toList.isPrefixOf s.toList

/-- Modelled from the spec: the fixed alias table of the key resolver
(src key-resolver source is not in the snapshot).  Spec sections 3 and 8
give the entries `tk → tasks.md`, `rq → requirements.md` and
`pdt → pending/tasks.md`; every entry is also a numbered family. -/
def aliasTable : List (String × List String) :=
  [("tk", ["tasks.md"]), ("rq", ["requirements.md"]), ("pdt", ["pending", "tasks.md"])]

/-- A nonempty digit string denoting a positive integer. -/
def isPosDigits (cs : List Char) : Bool :=
  !cs.isEmpty && cs.all (fun c => c.isDigit) && cs.any (fun c => c ≠ '0')

/-- Insert a numeric suffix before the extension of a filename:
`addNumberToFilename "tasks.md" ['3']` is `"tasks-3.md"` (spec section 4.2,
rule 2, example `tk3 → tasks-3.md`). -/
def addNumberToFilename (fname : String) (digits : List Char) : String :=
  match splitChar '.' fname.toList with
  | [stem, ext] => ⟨stem ++ ('-' :: digits) ++ ('.' :: ext)⟩
  | _ => ⟨fname.toList ++ ('-' :: digits)⟩

/-- Last segment of a resolved path (the filename); alias-table paths are
never empty. -/
def lastSeg (segs : List String) : String := (segs.getLast?).getD ""

/-- Modelled from the spec: resolution rule 2 (numbered-alias families,
spec section 4.2): a key `<base><N>` where `<base>` is an alias-table entry
and `N` a positive integer maps to the base's directory with the filename
suffixed by `-N`. -/
def numberedResolve (key : String) : Option (List String) :=
  match aliasTable.find? (fun e =>
      e.1.toList.isPrefixOf key.toList &&
      isPosDigits (key.toList.drop e.1.toList.length)) with
  | some e =>
      some (e.2.dropLast ++
        [addNumberToFilename (lastSeg e.2) (key.toList.drop e.1.toList.length)])
  | none => none

/-- Modelled from the spec: resolution rule 3 (pending-prefix, spec section
4.2): a key `pd-<base>` where `<base>` resolves by rule 1 or 2 gets a
`pending/` directory segment inserted immediately before the filename. -/
def pendingResolve (key : String) : Option (List String) :=
  if strStarts "pd-" key then
    let base : String := ⟨key.toList.drop 3⟩
    let r :=
      match aliasTable.find? (fun e => e.1 = base) with
      | some e => some e.2
      | none => numberedResolve base
    match r with
    | some p => some (p.dropLast ++ ["pending", lastSeg p])
    | none => none
  else none

/-- Does this filename carry an extension?  Mirrors `Path::extension`
being `Some`: there is a dot and a nonempty stem before it. -/
def hasExtension (fname : String) : Bool :=
  match splitChar '.' fname.toList with
  | [_] => false
  | [] :: _ => false
  | _ => true

/-- Modelled from the spec: resolution rule 4 (fallback, spec section 4.2):
the key is taken verbatim as a relative path, and `.md` is appended when the
filename has no extension; the empty key degenerates to `.md`. -/
def fallbackResolve (key : String) : RPath :=
  let abs := strStarts "/" key
  let segs : List String :=
    ((splitChar '/' key.toList).filter (fun cs => !cs.isEmpty)).map (fun cs => ⟨cs⟩)
  match segs.getLast? with
  | none => ⟨abs, [".md"]⟩
  | some last =>
    if hasExtension last then ⟨abs, segs⟩
    else ⟨abs, segs.dropLast ++ [⟨last.toList ++ ".md".toList⟩]⟩

/-- Modelled from the spec: `resolve_path` of the key resolver (referenced
from both src/core/clean.rs and src/commands/cat.rs; its source file is not
in the snapshot).  Spec section 4.2: a total, filesystem-free function
trying, in order, exact alias lookup, the numbered-alias pattern, the
pending-prefix pattern, and the verbatim fallback. -/
def resolve_path (key : String) : RPath :=
  match aliasTable.find? (fun e => e.1 = key) with
  | some e => ⟨false, e.2⟩
  | none =>
    match numberedResolve key with
    | some p => ⟨false, p⟩
    | none =>
      match pendingResolve key with
      | some p => ⟨false, p⟩
      | none => fallbackResolve key

/-- Lexical normalization of a relative path: resolves `.` and `..`
segments without touching the filesystem; `none` when a `..` segment would
escape upward past the starting directory. -/
def lexNormRelGo (acc : List String) : List String → Option (List String)
  | [] => some acc
  | s :: rest =>
    if s = "." ∨ s = "" then lexNormRelGo acc rest
    else if s = ".." then
      match acc with
      | [] => none
      | _ :: _ => lexNormRelGo acc.dropLast rest
    else lexNormRelGo (acc ++ [s]) rest

/-- Lexical normalization of a relative path from the store root. -/
def lexNormRel (segs : List String) : Option (List String) := lexNormRelGo [] segs

/-- Modelled from the spec: `validate_path` of the path validator
(referenced from src/commands/cat.rs; its source file is not in the
snapshot).  Spec section 4.3: rejects, with a `PathTraversal` error carrying
the original key, any resolved path that is absolute or whose lexical
normalization escapes the store root; purely lexical, no filesystem
access. -/
def validate_path (key : String) (p : RPath) : Except AppError Unit :=
  if p.abs then Except.error (AppError.pathTraversal key)
  else
    match lexNormRel p.segs with
    | none => Except.error (AppError.pathTraversal key)
    | some _ => Except.ok ()

/-- Lexical normalization of an absolute path (`..` at the filesystem root
stays at the root, as in POSIX). -/
def normAbsGo (acc : List String) : List String → List String
  | [] => acc
  | s :: rest =>
    if s = "." ∨ s = "" then normAbsGo acc rest
    else if s = ".." then normAbsGo acc.dropLast rest
    else normAbsGo (acc ++ [s]) rest

/-- Lexical normalization of an absolute path. -/
def normAbs (p : FPath) : FPath := normAbsGo [] p

/-- A filesystem node: a regular file with byte contents, or a directory. -/
inductive Node where
  | file (bytes : List Nat)
  | dir
deriving DecidableEq

/-- The filesystem: an association list from absolute normalized paths to
nodes. -/
abbrev Fs := List (FPath × Node)

/-- Raw lookup of an exact (already normalized) path. -/
def lookupFs (fs : Fs) (p : FPath) : Option Node :=
  match fs.find? (fun e => e.1 = p) with
  | some e => some e.2
  | none => none

/-- `stat`: what the kernel reports at a possibly unnormalized path
(models `Path::exists` / `Path::is_file`, which resolve `.` and `..`). -/
def statFs (fs : Fs) (p : FPath) : Option Node := lookupFs fs (normAbs p)

/-- Remove the entry at an exact normalized path (models `fs::remove_file`
after resolution). -/
def removeEntryFs (fs : Fs) (p : FPath) : Fs := fs.filter (fun e => e.1 ≠ p)

/-- Does the directory at normalized path `p` contain any entry? -/
def dirHasEntries (fs : Fs) (p : FPath) : Bool :=
  fs.any (fun e => decide (e.1 ≠ p) && p.isPrefixOf e.1)

/-- Models `fs::remove_dir` at a possibly unnormalized path: per POSIX,
`rmdir` fails outright when the final component is `.` or `..`; otherwise it
fails unless the resolved path is an existing empty directory. `none` is
failure. -/
def remove_dir (fs : Fs) (p : FPath) : Option Fs :=
  if p.getLast? = some "." ∨ p.getLast? = some ".." then none
  else
    match lookupFs fs (normAbs p) with
    | some Node.dir =>
      if dirHasEntries fs (normAbs p) then none
      else some (removeEntryFs fs (normAbs p))
    | _ => none

/-- Models `fs::remove_dir_all` at a normalized path: removes the node and
everything beneath it. -/
def removeTreeFs (fs : Fs) (p : FPath) : Fs :=
  fs.filter (fun e => !p.isPrefixOf e.1)

/-- Models `fs::write` at a normalized path: create or truncate the file. -/
def writeFileFs (fs : Fs) (p : FPath) (bs : List Nat) : Fs :=
  removeEntryFs fs p ++ [(p, Node.file bs)]

/-- Models `fs::create_dir_all` at a normalized path: create every missing
directory along the chain of prefixes of `p`. -/
def mkdirAllFs (fs : Fs) (p : FPath) : Fs :=
  ((List.range p.length).map (fun n => p.take (n + 1))).foldl
    (fun acc q =>
      match lookupFs acc q with
      | some _ => acc
      | none => acc ++ [(q, Node.dir)]) fs

/-- `PathBuf::join`: joining an absolute right-hand path replaces the
left-hand side entirely. -/
def joinR (dir : FPath) (rel : RPath) : FPath :=
  if rel.abs then rel.segs else dir ++ rel.segs

/-- Concatenate path segments with `/` separators (no leading slash). -/
def catSegs : List String → String
  | [] => ""
  | s :: rest => rest.foldl (fun acc t => acc ++ "/" ++ t) s

/-- `Path::display` for an absolute path given as a segment list. -/
def displayAbsP (p : FPath) : String := "/" ++ catSegs p

/-- `Path::display` for a resolved (possibly absolute) path. -/
def displayRel (r : RPath) : String := (if r.abs then "/" else "") ++ catSegs r.segs

/-- Is `b` a UTF-8 continuation byte? -/
def utf8Cont (b : Nat) : Bool := 0x80 ≤ b && b < 0xC0

/-- A UTF-8 decoder over byte lists, returning the decoded code points or
`none` on malformed input (stray continuation bytes, truncated sequences,
overlong encodings, surrogates, values beyond U+10FFFF).  This models the
strict decoding of `std::fs::read_to_string`, which fails hard on invalid
UTF-8 instead of substituting replacement characters. -/
def decodeUtf8 : List Nat → Option (List Nat)
  | [] => some []
  | b0 :: rest =>
    if b0 < 0x80 then (decodeUtf8 rest).map (fun t => b0 :: t)
    else if b0 < 0xC2 then none
    else if b0 < 0xE0 then
      match rest with
      | b1 :: rest1 =>
        if utf8Cont b1 then
          (decodeUtf8 rest1).map (fun t => ((b0 - 0xC0) * 64 + (b1 - 0x80)) :: t)
        else none
      | [] => none
    else if b0 < 0xF0 then
      match rest with
      | b1 :: b2 :: rest2 =>
        if utf8Cont b1 && utf8Cont b2 then
          let cp := (b0 - 0xE0) * 4096 + (b1 - 0x80) * 64 + (b2 - 0x80)
          if cp < 0x800 ∨ (0xD800 ≤ cp ∧ cp < 0xE000) then none
          else (decodeUtf8 rest2).map (fun t => cp :: t)
        else none
      | _ => none
    else if b0 < 0xF8 then
      match rest with
      | b1 :: b2 :: b3 :: rest3 =>
        if utf8Cont b1 && utf8Cont b2 && utf8Cont b3 then
          let cp := (b0 - 0xF0) * 262144 + (b1 - 0x80) * 4096 + (b2 - 0x80) * 64 + (b3 - 0x80)
          if cp < 0x10000 ∨ 0x10FFFF < cp then none
          else (decodeUtf8 rest3).map (fun t => cp :: t)
        else none
      | _ => none
    else none

/-- Embeds `cat` of src/commands/cat.rs: locate the project root (here the
`root` parameter), resolve the key, validate it, then read the file under
the hidden directory `.mx`; a missing path and a directory both give
`NotFound` errors, and invalid UTF-8 gives an `Io` error. -/
def cat (root : FPath) (fs : Fs) (key : String) : Except AppError (List Nat) :=
  let rel := resolve_path key
  match validate_path key rel with
  | Except.error e => Except.error e
  | Except.ok _ =>
    let mxDir := root ++ [".mx"]
    let fullPath := joinR mxDir rel
    match statFs fs fullPath with
    | none =>
      Except.error (AppError.notFound ("⚠️ Context file not found: " ++ displayRel rel))
    | some Node.dir =>
      Except.error (AppError.notFound ("⚠️ Path is not a file: " ++ displayRel rel))
    | some (Node.file bs) =>
      match decodeUtf8 bs with
      | some text => Except.ok text
      | none =>
        Except.error (AppError.ioError
          ("Failed to read " ++ displayRel rel ++ ": stream did not contain valid UTF-8"))

/-- The `cat_context` library surface for `cat` (spec section 6); the
wrapper in the lib.rs revision of the snapshot is a direct call. -/
def cat_context (root : FPath) (fs : Fs) (key : String) : Except AppError (List Nat) :=
  cat root fs key

/-- The outcome record of `clean` (src/core/clean.rs). -/
structure CleanOutcome where
  message : String
deriving DecidableEq

/-- The ancestor-pruning loop of `clean` (src/core/clean.rs lines 33-45),
with an explicit fuel argument for structural recursion: each iteration
replaces `parent` by `parent.dropLast`, so `parent.length` steps of fuel are
enough for the loop to reach its guard failure.  The guard and the break
conditions are exactly those of the source: continue while `parent` lexically
starts with the `.mix` directory and differs from it, and stop at the first
failing `remove_dir`. -/
def pruneGo (mixDir : FPath) : Nat → FPath → Fs → Fs
  | 0, _, fs => fs
  | fuel + 1, parent, fs =>
    if mixDir.isPrefixOf parent ∧ parent ≠ mixDir then
      match remove_dir fs parent with
      | none => fs
      | some fs' => pruneGo mixDir fuel parent.dropLast fs'
    else fs

/-- The ancestor-pruning loop started from the target's parent. -/
def prune (mixDir : FPath) (parent : FPath) (fs : Fs) : Fs :=
  pruneGo mixDir parent.length parent fs

/-- Embeds `clean` of src/core/clean.rs.  Without a key the whole `.mix`
store directory is removed recursively.  With a key, the key is resolved
(note: the source performs no `validate_path` step) and joined under
`.mix`; if something exists at the target it is removed with
`fs::remove_file` (a directory there makes `remove_file` fail with an `Io`
error, modelled with the OS error text), then empty ancestors are pruned;
otherwise the call fails with `NotFound` naming the computed path. -/
def clean (root : FPath) (fs : Fs) (key : Option String) : Except AppError CleanOutcome × Fs :=
  let mixDir := root ++ [".mix"]
  match key with
  | none =>
    if (statFs fs mixDir).isSome then
      (Except.ok ⟨"Removed .mix directory"⟩, removeTreeFs fs (normAbs mixDir))
    else
      (Except.ok ⟨".mix directory not found"⟩, fs)
  | some k =>
    let rel := resolve_path k
    let target := joinR mixDir rel
    match statFs fs target with
    | some (Node.file _) =>
      let fs1 := removeEntryFs fs (normAbs target)
      let fs2 := if target = [] then fs1 else prune mixDir target.dropLast fs1
      (Except.ok ⟨"Removed " ++ displayAbsP target⟩, fs2)
    | some Node.dir =>
      (Except.error (AppError.ioError "Is a directory (os error 21)"), fs)
    | none =>
      (Except.error (AppError.notFound ("File not found: " ++ displayAbsP target)), fs)

/-- Embeds `clean_context` of src/lib.rs: a direct call to `clean`. -/
def clean_context (root : FPath) (fs : Fs) (key : Option String) :
    Except AppError CleanOutcome × Fs :=
  clean root fs key

/-- The outcome record of `touch` (src/lib.rs `TouchOutcome`). -/
structure TouchOutcome where
  key : String
  path : FPath
  existed : Bool
  overwritten : Bool
deriving DecidableEq

/-- Modelled from the spec: `touch` of the touch operation (referenced from
src/lib.rs; its source file is not in the snapshot).  Spec sections 4.4 and
4.9: locate root, resolve, validate; if the target exists and `force` is
false report "existed, not overwritten" without writing; if it exists and
`force` is true truncate it and report "existed, overwritten"; if it does
not exist create the missing parent directories and an empty file.  The
store directory is `.mx` as in cat.rs and spec section 3. -/
def touch (root : FPath) (fs : Fs) (key : String) (force : Bool) :
    Except AppError TouchOutcome × Fs :=
  let rel := resolve_path key
  match validate_path key rel with
  | Except.error e => (Except.error e, fs)
  | Except.ok _ =>
    let full := joinR (root ++ [".mx"]) rel
    match statFs fs full with
    | some _ =>
      if force then
        (Except.ok ⟨key, full, true, true⟩, writeFileFs fs (normAbs full) [])
      else
        (Except.ok ⟨key, full, true, false⟩, fs)
    | none =>
      let fs1 := mkdirAllFs fs (normAbs full).dropLast
      (Except.ok ⟨key, full, false, false⟩, writeFileFs fs1 (normAbs full) [])

/-- Result of a `touch_context` call: the returned value, the filesystem
afterwards, and whether the clipboard collaborator was consulted at all. -/
structure TouchCtxResult where
  result : Except AppError TouchOutcome
  fs : Fs
  clipboardAccessed : Bool

/-- Embeds `touch_context` of src/lib.rs: run `touch`, and only when
`paste` is set and the file was just created or overwritten, obtain the
clipboard and write its content into the file.  The clipboard collaborator
(`clipboard_from_env` followed by `paste`) is modelled by the `clip`
argument: its error, when it is consulted, is returned unchanged. -/
def touch_context (root : FPath) (fs : Fs) (clip : Except AppError (List Nat))
    (key : String) (paste force : Bool) : TouchCtxResult :=
  match touch root fs key force with
  | (Except.error e, fs') => ⟨Except.error e, fs', false⟩
  | (Except.ok o, fs') =>
    if paste && (!o.existed || o.overwritten) then
      match clip with
      | Except.error e => ⟨Except.error e, fs', true⟩
      | Except.ok content => ⟨Except.ok o, writeFileFs fs' (normAbs o.path) content, true⟩
    else ⟨Except.ok o, fs', false⟩

/-! Helper lemmas: pointwise evaluation of the operations under the
hypotheses that drive each of their branches. -/

/-- A file just written is found by a raw lookup at its path. -/
theorem lookupFs_writeFileFs (fs : Fs) (p : FPath) (bs : List Nat) :
    lookupFs (writeFileFs fs p bs) p = some (Node.file bs) := by
  have hnone : (removeEntryFs fs p).find? (fun e => decide (e.1 = p)) = none := by
    rw [List.find?_eq_none]
    intro x hx
    have hmem := List.mem_filter.mp hx
    simpa using of_decide_eq_true hmem.2
  unfold lookupFs writeFileFs
  rw [List.find?_append, hnone]
  simp

/-- A key that resolves to an absolute path or to a path whose lexical
normalization escapes is rejected by the validator with `PathTraversal`. -/
theorem validate_fail_of_escape (k : String)
    (h : (resolve_path k).abs = true ∨ lexNormRel (resolve_path k).segs = none) :
    validate_path k (resolve_path k) = Except.error (AppError.pathTraversal k) := by
  unfold validate_path
  by_cases ha : (resolve_path k).abs = true
  · simp [ha]
  · rcases h with h | h
    · exact absurd h ha
    · simp [ha, h]

/-- `cat` propagates a validator error unchanged, before any filesystem
access. -/
theorem cat_eval_error (root : FPath) (fs : Fs) (k : String) (e : AppError)
    (hv : validate_path k (resolve_path k) = Except.error e) :
    cat_context root fs k = Except.error e := by
  simp only [cat_context, cat, hv]

/-- `cat` on a validated key whose target path has no node: `NotFound`. -/
theorem cat_eval_missing (root : FPath) (fs : Fs) (k : String)
    (hv : validate_path k (resolve_path k) = Except.ok ())
    (h : statFs fs (joinR (root ++ [".mx"]) (resolve_path k)) = none) :
    cat_context root fs k =
      Except.error (AppError.notFound
        ("⚠️ Context file not found: " ++ displayRel (resolve_path k))) := by
  simp only [cat_context, cat, hv, h]

/-- `cat` on a validated key whose target is a directory: `NotFound` with
the "not a file" message. -/
theorem cat_eval_dir (root : FPath) (fs : Fs) (k : String)
    (hv : validate_path k (resolve_path k) = Except.ok ())
    (h : statFs fs (joinR (root ++ [".mx"]) (resolve_path k)) = some Node.dir) :
    cat_context root fs k =
      Except.error (AppError.notFound
        ("⚠️ Path is not a file: " ++ displayRel (resolve_path k))) := by
  simp only [cat_context, cat, hv, h]

/-- `cat` on a validated key whose target is a file with decodable
contents: the decoded text. -/
theorem cat_eval_ok (root : FPath) (fs : Fs) (k : String) (bs t : List Nat)
    (hv : validate_path k (resolve_path k) = Except.ok ())
    (h : statFs fs (joinR (root ++ [".mx"]) (resolve_path k)) = some (Node.file bs))
    (hd : decodeUtf8 bs = some t) :
    cat_context root fs k = Except.ok t := by
  simp only [cat_context, cat, hv, h, hd]

/-- `cat` on a validated key whose target is a file with invalid UTF-8
contents: the wrapped `Io` error. -/
theorem cat_eval_badUtf8 (root : FPath) (fs : Fs) (k : String) (bs : List Nat)
    (hv : validate_path k (resolve_path k) = Except.ok ())
    (h : statFs fs (joinR (root ++ [".mx"]) (resolve_path k)) = some (Node.file bs))
    (hd : decodeUtf8 bs = none) :
    cat_context root fs k =
      Except.error (AppError.ioError
        ("Failed to read " ++ displayRel (resolve_path k) ++
          ": stream did not contain valid UTF-8")) := by
  simp only [cat_context, cat, hv, h, hd]

/-- `clean` with a key whose computed target path has no node: `NotFound`
naming the computed path, with the filesystem untouched. -/
theorem clean_eval_missing (root : FPath) (fs : Fs) (k : String)
    (h : statFs fs (joinR (root ++ [".mix"]) (resolve_path k)) = none) :
    clean_context root fs (some k) =
      (Except.error (AppError.notFound
        ("File not found: " ++ displayAbsP (joinR (root ++ [".mix"]) (resolve_path k)))),
       fs) := by
  simp only [clean_context, clean, h]

/-- `touch` propagates a validator error unchanged, touching nothing. -/
theorem touch_eval_error (root : FPath) (fs : Fs) (k : String) (force : Bool) (e : AppError)
    (hv : validate_path k (resolve_path k) = Except.error e) :
    touch root fs k force = (Except.error e, fs) := by
  simp only [touch, hv]

/-- `touch` without `force` on an existing target: reported as existed, not
overwritten, with the filesystem untouched. -/
theorem touch_eval_existing_noforce (root : FPath) (fs : Fs) (k : String) (n : Node)
    (hv : validate_path k (resolve_path k) = Except.ok ())
    (h : statFs fs (joinR (root ++ [".mx"]) (resolve_path k)) = some n) :
    touch root fs k false =
      (Except.ok ⟨k, joinR (root ++ [".mx"]) (resolve_path k), true, false⟩, fs) := by
  simp only [touch, hv, h]
  rfl

/-- `touch` on an absent target: parents are created and an empty file is
written; reported as created. -/
theorem touch_eval_absent (root : FPath) (fs : Fs) (k : String) (force : Bool)
    (hv : validate_path k (resolve_path k) = Except.ok ())
    (h : statFs fs (joinR (root ++ [".mx"]) (resolve_path k)) = none) :
    touch root fs k force =
      (Except.ok ⟨k, joinR (root ++ [".mx"]) (resolve_path k), false, false⟩,
       writeFileFs (mkdirAllFs fs (normAbs (joinR (root ++ [".mx"]) (resolve_path k))).dropLast)
         (normAbs (joinR (root ++ [".mx"]) (resolve_path k))) []) := by
  simp only [touch, hv, h]

/-! Claim theorems. -/

/-- C1: the claim states that for a key whose resolved relative path escapes
the store root, `clean_context (some key)` validates before any filesystem
effect and fails with `PathTraversal`, deleting nothing.  The source of
`clean` (src/core/clean.rs) never calls `validate_path`, so the claim fails:
with project root `/home`, a store directory `/home/.mix`, and a file
`/home/secret.md` OUTSIDE the store root, `clean_context (some "../secret")`
resolves the key to `../secret.md`, finds the file through the unvalidated
joined path `/home/.mix/../secret.md`, deletes it, and returns `Ok` — no
`PathTraversal` error and a deletion outside the store. -/
theorem clean_traversal_deletes_outside :
    clean_context ["home"]
      [(["home"], Node.dir), (["home", ".mix"], Node.dir),
       (["home", "secret.md"], Node.file [115])]
      (some "../secret") =
    (Except.ok ⟨"Removed /home/.mix/../secret.md"⟩,
     [(["home"], Node.dir), (["home", ".mix"], Node.dir)]) := rfl

/-- C2 (counterexample): the claim states that `cat_context` and
`clean_context` address context files under one and the same hidden
directory name beneath the located project root.  They do not: with the
same root and the same key `tk`, and the file present at `.mx/tasks.md`
(the directory cat uses, src/commands/cat.rs line 44), `cat_context`
succeeds while `clean_context` looks under `.mix` (src/core/clean.rs line
11) and reports the target as not found. -/
theorem cat_clean_store_dirs_differ :
    cat_context [] [([".mx"], Node.dir), ([".mx", "tasks.md"], Node.file [104, 105])] "tk" =
      Except.ok [104, 105] ∧
    clean_context [] [([".mx"], Node.dir), ([".mx", "tasks.md"], Node.file [104, 105])]
      (some "tk") =
      (Except.error (AppError.notFound "File not found: /.mix/tasks.md"),
       [([".mx"], Node.dir), ([".mx", "tasks.md"], Node.file [104, 105])]) :=
  ⟨rfl, rfl⟩

/-- C2 (amended): each operation addresses context files under its own
fixed hidden directory directly beneath the located project root, but the
directory names differ: `cat_context` reads under `.mx` while
`clean_context` looks up its target under `.mix`. -/
theorem cat_uses_mx_clean_uses_mix (root : FPath) (fs : Fs) (k : String) :
    (∀ bs t, validate_path k (resolve_path k) = Except.ok () →
      statFs fs (joinR (root ++ [".mx"]) (resolve_path k)) = some (Node.file bs) →
      decodeUtf8 bs = some t → cat_context root fs k = Except.ok t) ∧
    (statFs fs (joinR (root ++ [".mix"]) (resolve_path k)) = none →
      clean_context root fs (some k) =
        (Except.error (AppError.notFound
          ("File not found: " ++ displayAbsP (joinR (root ++ [".mix"]) (resolve_path k)))),
         fs)) :=
  ⟨fun bs t hv hf hd => cat_eval_ok root fs k bs t hv hf hd,
   fun h => clean_eval_missing root fs k h⟩

/-- C2 (witness): both conjuncts of the amended theorem instantiated at a
concrete store. -/
theorem cat_uses_mx_clean_uses_mix_witness :
    cat_context [] [([".mx"], Node.dir), ([".mx", "tasks.md"], Node.file [104])] "tk" =
      Except.ok [104] ∧
    clean_context [] [([".mx"], Node.dir), ([".mx", "tasks.md"], Node.file [104])]
      (some "tk") =
      (Except.error (AppError.notFound "File not found: /.mix/tasks.md"),
       [([".mx"], Node.dir), ([".mx", "tasks.md"], Node.file [104])]) :=
  ⟨(cat_uses_mx_clean_uses_mix []
      [([".mx"], Node.dir), ([".mx", "tasks.md"], Node.file [104])] "tk").1
      [104] [104] rfl rfl rfl,
   (cat_uses_mx_clean_uses_mix []
      [([".mx"], Node.dir), ([".mx", "tasks.md"], Node.file [104])] "tk").2 rfl⟩

/-- C3: the claim states that after a keyed deletion the emptied ancestors
strictly inside the store root are pruned but the store root itself is
never removed.  Because `clean` performs no validation and prunes along the
UNNORMALIZED parent chain of the joined path (src/core/clean.rs lines
33-44), the key `../.mix/x` — whose target resolves back INTO the store at
`/.mix/x.md` — produces the parent chain `/.mix/../.mix`, which resolves to
the store root itself: after deleting `x.md` the loop's guard
(`starts_with(.mix)` and `≠ .mix`, both true of the unnormalized path)
admits it and `remove_dir` deletes the store root.  The resulting
filesystem is empty: `.mix` itself is gone, contradicting the claim. -/
theorem clean_traversal_removes_store_root :
    clean_context [] [([".mix"], Node.dir), ([".mix", "x.md"], Node.file [97])]
      (some "../.mix/x") =
    (Except.ok ⟨"Removed /.mix/../.mix/x.md"⟩, []) := rfl

/-- C4: for every key whose resolved path, after lexical normalization, is
absolute or escapes the store root, `cat_context` fails with `PathTraversal`
for every filesystem — in particular regardless of whether any target
exists — because validation precedes every filesystem access
(src/commands/cat.rs line 41). -/
theorem cat_rejects_escaping_keys (root : FPath) (fs : Fs) (k : String)
    (h : (resolve_path k).abs = true ∨ lexNormRel (resolve_path k).segs = none) :
    cat_context root fs k = Except.error (AppError.pathTraversal k) :=
  cat_eval_error root fs k _ (validate_fail_of_escape k h)

/-- C4 (witness): the escaping key `../x` is rejected even though the
escaped target `/x.md` exists. -/
theorem cat_rejects_escaping_keys_witness :
    cat_context [] [([".mx"], Node.dir), (["x.md"], Node.file [97])] "../x" =
      Except.error (AppError.pathTraversal "../x") :=
  cat_rejects_escaping_keys [] [([".mx"], Node.dir), (["x.md"], Node.file [97])] "../x"
    (Or.inr rfl)

/-- C5: `touch` with `force = false` is idempotent: if a first call
succeeds, a second call on the resulting filesystem changes nothing (so the
contents produced by the first call are untouched) and succeeds reporting
`existed = true, overwritten = false`. -/
theorem touch_idempotent_no_force (root : FPath) (fs fs1 : Fs) (k : String) (o : TouchOutcome)
    (h : touch root fs k false = (Except.ok o, fs1)) :
    touch root fs1 k false =
      (Except.ok ⟨k, joinR (root ++ [".mx"]) (resolve_path k), true, false⟩, fs1) := by
  cases hv : validate_path k (resolve_path k) with
  | error e =>
    rw [touch_eval_error root fs k false e hv] at h
    exact absurd (congrArg Prod.fst h) (by simp)
  | ok u =>
    cases u
    cases hs : statFs fs (joinR (root ++ [".mx"]) (resolve_path k)) with
    | some n =>
      have heq := (touch_eval_existing_noforce root fs k n hv hs).symm.trans h
      have hfs : fs1 = fs := (congrArg Prod.snd heq).symm
      subst hfs
      exact touch_eval_existing_noforce root fs1 k n hv hs
    | none =>
      have heq := (touch_eval_absent root fs k false hv hs).symm.trans h
      have hfs : fs1 =
          writeFileFs (mkdirAllFs fs (normAbs (joinR (root ++ [".mx"]) (resolve_path k))).dropLast)
            (normAbs (joinR (root ++ [".mx"]) (resolve_path k))) [] :=
        (congrArg Prod.snd heq).symm
      have hstat : statFs fs1 (joinR (root ++ [".mx"]) (resolve_path k)) =
          some (Node.file []) := by
        rw [hfs]
        exact lookupFs_writeFileFs _ _ _
      exact touch_eval_existing_noforce root fs1 k (Node.file []) hv hstat

/-- C5 (witness): a first `touch` of `tk` on an empty filesystem creates
`.mx/tasks.md`; the second call reports existed, not overwritten, and
leaves the filesystem exactly as the first call left it. -/
theorem touch_idempotent_no_force_witness :
    touch [] [([".mx"], Node.dir), ([".mx", "tasks.md"], Node.file [])] "tk" false =
      (Except.ok ⟨"tk", [".mx", "tasks.md"], true, false⟩,
       [([".mx"], Node.dir), ([".mx", "tasks.md"], Node.file [])]) :=
  touch_idempotent_no_force [] []
    [([".mx"], Node.dir), ([".mx", "tasks.md"], Node.file [])] "tk"
    ⟨"tk", [".mx", "tasks.md"], false, false⟩ rfl

/-- C6: for a validated key, `cat_context` fails with `NotFound` when
nothing exists at the resolved absolute path; fails with `NotFound` and a
"not a file" message when a directory sits there; and returns the full
decoded file contents otherwise. -/
theorem cat_notfound_or_contents (root : FPath) (fs : Fs) (k : String)
    (hv : validate_path k (resolve_path k) = Except.ok ()) :
    (statFs fs (joinR (root ++ [".mx"]) (resolve_path k)) = none →
      cat_context root fs k =
        Except.error (AppError.notFound
          ("⚠️ Context file not found: " ++ displayRel (resolve_path k)))) ∧
    (statFs fs (joinR (root ++ [".mx"]) (resolve_path k)) = some Node.dir →
      cat_context root fs k =
        Except.error (AppError.notFound
          ("⚠️ Path is not a file: " ++ displayRel (resolve_path k)))) ∧
    (∀ bs t, statFs fs (joinR (root ++ [".mx"]) (resolve_path k)) = some (Node.file bs) →
      decodeUtf8 bs = some t → cat_context root fs k = Except.ok t) :=
  ⟨fun h => cat_eval_missing root fs k hv h,
   fun h => cat_eval_dir root fs k hv h,
   fun bs t h hd => cat_eval_ok root fs k bs t hv h hd⟩

/-- C6 (witness): a directory at `.mx/somedir.md` gives `NotFound` with the
"not a file" message (spec's directory-vs-file scenario). -/
theorem cat_notfound_or_contents_witness :
    cat_context [] [([".mx"], Node.dir), ([".mx", "somedir.md"], Node.dir)] "somedir.md" =
      Except.error (AppError.notFound "⚠️ Path is not a file: somedir.md") :=
  (cat_notfound_or_contents []
    [([".mx"], Node.dir), ([".mx", "somedir.md"], Node.dir)] "somedir.md" rfl).2.1 rfl

/-- C7: when nothing exists at the computed target path,
`clean_context (some key)` fails with `NotFound` and a message naming the
computed absolute path of the missing target (src/core/clean.rs line 49). -/
theorem clean_missing_target_notfound (root : FPath) (fs : Fs) (k : String)
    (h : statFs fs (joinR (root ++ [".mix"]) (resolve_path k)) = none) :
    clean_context root fs (some k) =
      (Except.error (AppError.notFound
        ("File not found: " ++ displayAbsP (joinR (root ++ [".mix"]) (resolve_path k)))),
       fs) :=
  clean_eval_missing root fs k h

/-- C7 (witness): cleaning `tk` in an empty store yields `NotFound` naming
the computed absolute path `/.mix/tasks.md`. -/
theorem clean_missing_target_notfound_witness :
    clean_context [] [([".mix"], Node.dir)] (some "tk") =
      (Except.error (AppError.notFound "File not found: /.mix/tasks.md"),
       [([".mix"], Node.dir)]) :=
  clean_missing_target_notfound [] [([".mix"], Node.dir)] "tk" rfl

/-- C8: an existing regular file whose contents are not valid UTF-8 makes
`cat_context` fail with an `Io` error (the strict `read_to_string` failure,
src/commands/cat.rs lines 64-69) instead of silently returning replaced
characters. -/
theorem cat_invalid_utf8_io_error (root : FPath) (fs : Fs) (k : String) (bs : List Nat)
    (hv : validate_path k (resolve_path k) = Except.ok ())
    (h : statFs fs (joinR (root ++ [".mx"]) (resolve_path k)) = some (Node.file bs))
    (hd : decodeUtf8 bs = none) :
    cat_context root fs k =
      Except.error (AppError.ioError
        ("Failed to read " ++ displayRel (resolve_path k) ++
          ": stream did not contain valid UTF-8")) :=
  cat_eval_badUtf8 root fs k bs hv h hd

/-- C8 (witness): the single byte 0xFF is not valid UTF-8, and reading the
file containing it is a hard `Io` error. -/
theorem cat_invalid_utf8_io_error_witness :
    cat_context [] [([".mx"], Node.dir), ([".mx", "tasks.md"], Node.file [255])] "tk" =
      Except.error (AppError.ioError
        "Failed to read tasks.md: stream did not contain valid UTF-8") :=
  cat_invalid_utf8_io_error []
    [([".mx"], Node.dir), ([".mx", "tasks.md"], Node.file [255])] "tk" [255] rfl rfl rfl

/-- C9: when the key's file already exists, `touch_context` with
`paste = true, force = false` never consults the clipboard and never writes
the file: the filesystem is unchanged and the whole result is independent
of the clipboard collaborator, so a clipboard failure cannot make this
no-op call fail (src/lib.rs line 76's guard is false). -/
theorem touch_context_existing_no_clipboard (root : FPath) (fs : Fs)
    (clip clip2 : Except AppError (List Nat)) (k : String) (bs : List Nat)
    (hex : statFs fs (joinR (root ++ [".mx"]) (resolve_path k)) = some (Node.file bs)) :
    (touch_context root fs clip k true false).clipboardAccessed = false ∧
    (touch_context root fs clip k true false).fs = fs ∧
    touch_context root fs clip k true false = touch_context root fs clip2 k true false := by
  cases hv : validate_path k (resolve_path k) with
  | error e =>
    have h1 := touch_eval_error root fs k false e hv
    simp [touch_context, h1]
  | ok u =>
    cases u
    have h1 := touch_eval_existing_noforce root fs k (Node.file bs) hv hex
    simp [touch_context, h1]

/-- C9 (witness): with `.mx/tasks.md` present, the call ignores a failing
clipboard: no access, no write, same result as with a working clipboard. -/
theorem touch_context_existing_no_clipboard_witness :
    (touch_context [] [([".mx"], Node.dir), ([".mx", "tasks.md"], Node.file [97])]
      (Except.error (AppError.clipboardError "clipboard unavailable")) "tk" true
      false).clipboardAccessed = false ∧
    (touch_context [] [([".mx"], Node.dir), ([".mx", "tasks.md"], Node.file [97])]
      (Except.error (AppError.clipboardError "clipboard unavailable")) "tk" true false).fs =
      [([".mx"], Node.dir), ([".mx", "tasks.md"], Node.file [97])] ∧
    touch_context [] [([".mx"], Node.dir), ([".mx", "tasks.md"], Node.file [97])]
      (Except.error (AppError.clipboardError "clipboard unavailable")) "tk" true false =
    touch_context [] [([".mx"], Node.dir), ([".mx", "tasks.md"], Node.file [97])]
      (Except.ok [98]) "tk" true false :=
  touch_context_existing_no_clipboard []
    [([".mx"], Node.dir), ([".mx", "tasks.md"], Node.file [97])]
    (Except.error (AppError.clipboardError "clipboard unavailable")) (Except.ok [98])
    "tk" [97] rfl

/-- C10: whenever `clean_context (some key)` returns a `NotFound` error the
filesystem is returned unchanged: the existence check precedes the deletion
and the pruning (src/core/clean.rs lines 28 and 48-50), and the `NotFound`
branch performs no filesystem effect. -/
theorem clean_notfound_preserves_fs (root : FPath) (fs fs' : Fs) (k msg : String)
    (h : clean_context root fs (some k) = (Except.error (AppError.notFound msg), fs')) :
    fs' = fs := by
  simp only [clean_context, clean] at h
  split at h <;> simp_all

/-- C10 (witness): a `NotFound` run (key `tk`, store without the file)
returns the input filesystem unchanged. -/
theorem clean_notfound_preserves_fs_witness :
    ([([".mx"], Node.dir)] : Fs) = [([".mx"], Node.dir)] :=
  clean_notfound_preserves_fs [] [([".mx"], Node.dir)] [([".mx"], Node.dir)] "tk"
    "File not found: /.mix/tasks.md" rfl

end Mix
